import Mathlib

/-!
Shallow embedding of the RTM API client (`client.go`) and proofs about its
request-signing, URL-building, transport and response-envelope logic.

The embedding mirrors the Go source:
* `url.Values` (as used by the client: single-valued entries manipulated only
  through `Set` and `Get`) becomes `Params`, an association list with
  `setParam` / `getParam`.
* `crypto/md5` + `encoding/hex` become an executable MD5 implementation
  (`md5Hex`), validated below against the standard test vectors.
* `Client.sign`, `Client.AuthenticationURL`, `Client.post` and `Client.Call`
  are translated function by function.  I/O collaborators that are not part of
  the repository (the HTTP round trip of `net/http` and the XML decoder of
  `encoding/xml`) enter as explicit inputs: the round trip as an
  `Except String HttpResponse` value, the decoder as a
  `String → Except String Rsp` function.  The debug logger becomes an event
  trace emitted alongside the result.
-/

namespace RTM

/-! ### Bytes, hex, UTF-8 -/

/-- Lowercase hexadecimal digit characters (`encoding/hex` alphabet). -/
def hexDigits : List Char := "0123456789abcdef".data

/-- Uppercase hexadecimal digit characters (used by `net/url` percent-escaping). -/
def hexDigitsUpper : List Char := "0123456789ABCDEF".data

/-- Lowercase hexadecimal rendering of one byte (a natural number below 256). -/
def byteToHex (b : Nat) : String :=
  String.mk [hexDigits.getD (b / 16) '0', hexDigits.getD (b % 16) '0']

/-- UTF-8 encoding of a single character, as a list of byte values. -/
def charUtf8 (c : Char) : List Nat :=
  let n := c.toNat
  if n < 0x80 then [n]
  else if n < 0x800 then [0xC0 + n / 64, 0x80 + n % 64]
  else if n < 0x10000 then [0xE0 + n / 4096, 0x80 + n / 64 % 64, 0x80 + n % 64]
  else [0xF0 + n / 262144, 0x80 + n / 4096 % 64, 0x80 + n / 64 % 64, 0x80 + n % 64]

/-- UTF-8 bytes of a string (what Go obtains by converting a `string` to `[]byte`). -/
def strBytes (s : String) : List Nat :=
  s.data.flatMap charUtf8

/-! ### MD5 (`crypto/md5`), RFC 1321 -/

/-- Addition of 32-bit words (modulo 2^32). -/
def add32 (a b : Nat) : Nat := (a + b) % 4294967296

/-- Left rotation of a 32-bit word by `s` bits. -/
def rotl32 (x s : Nat) : Nat :=
  (x * 2 ^ s + x / 2 ^ (32 - s)) % 4294967296

/-- Bitwise complement of a 32-bit word. -/
def not32 (x : Nat) : Nat := 4294967295 - x

/-- The 64 MD5 sine-derived constants (RFC 1321). -/
def md5K : List Nat :=
  [0xd76aa478, 0xe8c7b756, 0x242070db, 0xc1bdceee,
   0xf57c0faf, 0x4787c62a, 0xa8304613, 0xfd469501,
   0x698098d8, 0x8b44f7af, 0xffff5bb1, 0x895cd7be,
   0x6b901122, 0xfd987193, 0xa679438e, 0x49b40821,
   0xf61e2562, 0xc040b340, 0x265e5a51, 0xe9b6c7aa,
   0xd62f105d, 0x02441453, 0xd8a1e681, 0xe7d3fbc8,
   0x21e1cde6, 0xc33707d6, 0xf4d50d87, 0x455a14ed,
   0xa9e3e905, 0xfcefa3f8, 0x676f02d9, 0x8d2a4c8a,
   0xfffa3942, 0x8771f681, 0x6d9d6122, 0xfde5380c,
   0xa4beea44, 0x4bdecfa9, 0xf6bb4b60, 0xbebfbc70,
   0x289b7ec6, 0xeaa127fa, 0xd4ef3085, 0x04881d05,
   0xd9d4d039, 0xe6db99e5, 0x1fa27cf8, 0xc4ac5665,
   0xf4292244, 0x432aff97, 0xab9423a7, 0xfc93a039,
   0x655b59c3, 0x8f0ccc92, 0xffeff47d, 0x85845dd1,
   0x6fa87e4f, 0xfe2ce6e0, 0xa3014314, 0x4e0811a1,
   0xf7537e82, 0xbd3af235, 0x2ad7d2bb, 0xeb86d391]

/-- The 64 per-round left-rotation amounts (RFC 1321). -/
def md5S : List Nat :=
  [7, 12, 17, 22, 7, 12, 17, 22, 7, 12, 17, 22, 7, 12, 17, 22,
   5, 9, 14, 20, 5, 9, 14, 20, 5, 9, 14, 20, 5, 9, 14, 20,
   4, 11, 16, 23, 4, 11, 16, 23, 4, 11, 16, 23, 4, 11, 16, 23,
   6, 10, 15, 21, 6, 10, 15, 21, 6, 10, 15, 21, 6, 10, 15, 21]

/-- The round function value and message-word index for round `i` of an MD5 block. -/
def md5Round (b c d i : Nat) : Nat × Nat :=
  if i < 16 then ((b &&& c) ||| (not32 b &&& d), i)
  else if i < 32 then ((d &&& b) ||| (not32 d &&& c), (5 * i + 1) % 16)
  else if i < 48 then (b ^^^ c ^^^ d, (3 * i + 5) % 16)
  else (c ^^^ (b ||| not32 d), (7 * i) % 16)

/-- One MD5 compression round over a 16-word block `m`, updating state `(a, b, c, d)`. -/
def md5Step (m : List Nat) (st : Nat × Nat × Nat × Nat) (i : Nat) : Nat × Nat × Nat × Nat :=
  let (a, b, c, d) := st
  let (f, g) := md5Round b c d i
  let sum := add32 (add32 (add32 a f) (md5K.getD i 0)) (m.getD g 0)
  (d, add32 b (rotl32 sum (md5S.getD i 0)), b, c)

/-- MD5 compression of one 64-byte block (given as 16 little-endian words). -/
def md5Block (st : Nat × Nat × Nat × Nat) (m : List Nat) : Nat × Nat × Nat × Nat :=
  let (a0, b0, c0, d0) := st
  let (a, b, c, d) := (List.range 64).foldl (md5Step m) (a0, b0, c0, d0)
  (add32 a0 a, add32 b0 b, add32 c0 c, add32 d0 d)

/-- Group a byte list into consecutive little-endian 32-bit words. -/
def toWords : List Nat → List Nat
  | b0 :: b1 :: b2 :: b3 :: rest =>
      (b0 + 256 * b1 + 65536 * b2 + 16777216 * b3) :: toWords rest
  | _ => []

/-- Split a word list into consecutive chunks of 16 words. -/
def chunk16 : List Nat → List (List Nat)
  | [] => []
  | a0 :: a1 :: a2 :: a3 :: a4 :: a5 :: a6 :: a7 ::
    a8 :: a9 :: a10 :: a11 :: a12 :: a13 :: a14 :: a15 :: rest =>
      [a0, a1, a2, a3, a4, a5, a6, a7, a8, a9, a10, a11, a12, a13, a14, a15] :: chunk16 rest
  | l => [l]

/-- Little-endian byte rendering of `n` over `k` bytes. -/
def leBytes (k n : Nat) : List Nat :=
  match k with
  | 0 => []
  | k + 1 => n % 256 :: leBytes k (n / 256)

/-- MD5 padding: append 0x80, zero-fill to 56 mod 64, append the 64-bit bit length. -/
def md5Pad (msg : List Nat) : List Nat :=
  let len := msg.length
  let zeros := (119 - len % 64) % 64
  msg ++ [0x80] ++ List.replicate zeros 0 ++ leBytes 8 (len * 8 % 2 ^ 64)

/-- MD5 digest of a byte list, as 16 bytes. -/
def md5Bytes (msg : List Nat) : List Nat :=
  let blocks := chunk16 (toWords (md5Pad msg))
  let (a, b, c, d) :=
    blocks.foldl md5Block (0x67452301, 0xefcdab89, 0x98badcfe, 0x10325476)
  leBytes 4 a ++ leBytes 4 b ++ leBytes 4 c ++ leBytes 4 d

/-- Lowercase hexadecimal MD5 digest of the UTF-8 bytes of a string.  This is
`hex.EncodeToString(md5.Sum([]byte(s)))` from the Go source. -/
def md5Hex (s : String) : String :=
  String.join ((md5Bytes (strBytes s)).map byteToHex)

/-! ### Parameter sets (`url.Values` as used by client.go) -/

/-- Request parameters.  `client.go` uses `url.Values` (a map from string keys to
string-value slices) exclusively through `Set` and `Get`, so every entry is
single-valued and the map is modelled as an association list. -/
abbrev Params := List (String × String)

/-- The keys of a parameter set (Go: `for k := range q`). -/
def keysOf (q : Params) : List String := q.map Prod.fst

/-- Go `url.Values.Get`: the value of the first entry for `k`, `""` if absent. -/
def getParam (q : Params) (k : String) : String :=
  match q.find? (fun p => p.1 == k) with
  | some p => p.2
  | none => ""

/-- Go `url.Values.Set`: replace any entry for `k` by the single entry `(k, v)`. -/
def setParam (q : Params) (k v : String) : Params :=
  q.filter (fun p => p.1 != k) ++ [(k, v)]

/-- A parameter set built by `Set`-inserting the given pairs into an empty map
(the `for k, v := range args { q.Set(k, v) }` loop of `Client.post`). -/
def paramsOfList (l : List (String × String)) : Params :=
  l.foldl (fun q p => setParam q p.1 p.2) []

/-- The parameter keys in ascending lexicographic order (Go: `sort.Strings(keys)`). -/
def sortedKeys (q : Params) : List String :=
  List.insertionSort (· ≤ ·) (keysOf q)

/-! ### Signing (`Client.sign`) -/

/-- The string-to-sign of `Client.sign`: the secret followed by each sorted key
immediately followed by its value (`sts += k + q.Get(k)`). -/
def stringToSign (secret : String) (q : Params) : String :=
  (sortedKeys q).foldl (fun sts k => sts ++ k ++ getParam q k) secret

/-- `Client.sign`: set `api_sig` to the lowercase-hex MD5 of the string-to-sign. -/
def sign (secret : String) (q : Params) : Params :=
  setParam q "api_sig" (md5Hex (stringToSign secret q))

/-! ### Endpoints and query serialization (`net/url` as used by client.go) -/

/-- The fields of a Go `url.URL` used by the two endpoint constants. -/
structure GoURL where
  scheme : String
  host : String
  path : String
deriving DecidableEq, Repr

/-- The fixed authorization endpoint. -/
def authEndpoint : GoURL :=
  ⟨"https", "api.rememberthemilk.com", "/services/auth/"⟩

/-- The fixed REST call endpoint. -/
def restEndpoint : GoURL :=
  ⟨"https", "api.rememberthemilk.com", "/services/rest/"⟩

/-- The fixed identifying client-agent header value. -/
def userAgent : String := "github.com/AlekSi/rtm"

/-- Go `url.URL.String` for the URLs this client builds (scheme, host, path and
a raw query appended after `?` when non-empty). -/
def urlString (u : GoURL) (rawQuery : String) : String :=
  u.scheme ++ "://" ++ u.host ++ u.path ++ (if rawQuery = "" then "" else "?" ++ rawQuery)

/-- Bytes left unescaped by Go `url.QueryEscape`: ASCII letters, digits, `-_.~`. -/
def isUnreservedByte (b : Nat) : Bool :=
  (65 ≤ b && b ≤ 90) || (97 ≤ b && b ≤ 122) || (48 ≤ b && b ≤ 57) ||
  b == 45 || b == 95 || b == 46 || b == 126

/-- Go `url.QueryEscape` treatment of one byte: kept, `+` for space, or `%XX`. -/
def escapeByte (b : Nat) : String :=
  if isUnreservedByte b then String.mk [Char.ofNat b]
  else if b == 32 then "+"
  else String.mk ['%', hexDigitsUpper.getD (b / 16) '0', hexDigitsUpper.getD (b % 16) '0']

/-- Go `url.QueryEscape` over the UTF-8 bytes of a string. -/
def queryEscape (s : String) : String :=
  String.join ((strBytes s).map escapeByte)

/-- Go `url.Values.Encode`: for each key in sorted order, `key=value` with both
sides query-escaped, joined by `&`. -/
def encodeValues (q : Params) : String :=
  String.intercalate "&"
    ((sortedKeys q).map (fun k => queryEscape k ++ "=" ++ queryEscape (getParam q k)))

/-! ### The client -/

/-- Permission level (`type Perms string`). -/
abbrev Perms := String

/-- The `read` permission constant. -/
def Read : Perms := "read"

/-- The `write` permission constant. -/
def Write : Perms := "write"

/-- The `delete` permission constant. -/
def Delete : Perms := "delete"

/-- The `Client` struct.  `HTTPClient` performs the network exchange, which the
embedding receives as an explicit input, so only the presence of the debug
logger is recorded (`DebugLogger != nil`). -/
structure Client where
  APIKey : String
  APISecret : String
  AuthToken : String
  hasDebugLogger : Bool
deriving DecidableEq, Repr

/-- The parameter set built by `Client.AuthenticationURL` before signing:
`api_key`, `perms`, and `frob` only when non-empty. -/
def authParams (c : Client) (perms : Perms) (frob : String) : Params :=
  let q := setParam (setParam [] "api_key" c.APIKey) "perms" perms
  if frob != "" then setParam q "frob" frob else q

/-- `Client.AuthenticationURL`: sign the auth parameters and serialize them
against the fixed authorization endpoint. -/
def AuthenticationURL (c : Client) (perms : Perms) (frob : String) : String :=
  let q := sign c.APISecret (authParams c perms frob)
  urlString authEndpoint (encodeValues q)

/-! ### Transport (`Client.post`) -/

/-- An HTTP response as consumed by `Client.post`: the status code and the
fully read body. -/
structure HttpResponse where
  status : Nat
  body : String
deriving DecidableEq, Repr

/-- The error values `Client.post` / `Client.Call` can return, one constructor
per distinct error source in the Go code.  Only `rtmError` is the typed
`*rtm.Error` value; the others are untyped Go errors. -/
inductive GoError where
  | netError (msg : String)
  | httpStatusError (status : Nat)
  | xmlError (msg : String)
  | rtmError (code : Int) (msg : String)
  | statError (stat : String)
deriving DecidableEq, Repr

/-- The Go `Error()` message of each error value.  `rtmError` renders as
`fmt.Sprintf("%d: %s", ...)` (the `Error.Error` method); `httpStatusError` and
`statError` render their `fmt.Errorf` format strings (`%q` modelled for status
strings that need no escaping). -/
def GoError.message : GoError → String
  | .netError m => m
  | .httpStatusError st => "HTTP status code " ++ toString st
  | .xmlError m => m
  | .rtmError c m => toString c ++ ": " ++ m
  | .statError st => "unexpected stat \"" ++ st ++ "\""

/-- Whether the error value is the typed `*rtm.Error` (the value a Go caller
could recover with the type assertion `err.(*Error)`); only that value carries
a numeric code. -/
def GoError.isTypedError : GoError → Bool
  | .rtmError _ _ => true
  | _ => false

/-- Observable events of one `Client.post` execution, in order: the request
dump handed to the debug logger, the request leaving through the HTTP client,
the response arriving, and the response dump handed to the debug logger. -/
inductive Event where
  | dumpRequest (method url userAgent : String)
  | send (method url userAgent : String)
  | receive (resp : HttpResponse)
  | dumpResponse (resp : HttpResponse)
deriving DecidableEq, Repr

/-- The query-building loop of `Client.post`: caller args `Set` first, then the
control parameters `v`, `method`, optional `format`, `api_key`, and
`auth_token` only when the client carries a non-empty token. -/
def buildQuery (args : Params) (method format apiKey authToken : String) : Params :=
  let q := args.foldl (fun q p => setParam q p.1 p.2) []
  let q := setParam q "v" "2"
  let q := setParam q "method" method
  let q := if format != "" then setParam q "format" format else q
  let q := setParam q "api_key" apiKey
  if authToken != "" then setParam q "auth_token" authToken else q

/-- The full request URL `Client.post` builds: the signed merged query
serialized against the REST endpoint. -/
def requestURL (c : Client) (method : String) (args : Params) (format : String) : String :=
  urlString restEndpoint
    (encodeValues (sign c.APISecret (buildQuery args method format c.APIKey c.AuthToken)))

/-- `Client.post`.  The network exchange (`c.http().Do`) is an explicit input:
either a transport failure message or the delivered response.  The result is
paired with the event trace: the request dump (debug logger configured only),
the send, and — when a response arrives — its receipt and its dump (debug
logger configured only).  Then the Go branches: transport error, non-200
status, or the body. -/
def post (c : Client) (method : String) (args : Params) (format : String)
    (exchange : Except String HttpResponse) : Except GoError String × List Event :=
  let u := requestURL c method args format
  let pre := (if c.hasDebugLogger then [Event.dumpRequest "POST" u userAgent] else [])
    ++ [Event.send "POST" u userAgent]
  match exchange with
  | .error e => (.error (.netError e), pre)
  | .ok r =>
      let tr := pre ++ [Event.receive r]
        ++ (if c.hasDebugLogger then [Event.dumpResponse r] else [])
      if r.status ≠ 200 then (.error (.httpStatusError r.status), tr)
      else (.ok r.body, tr)

/-! ### Envelope parsing (`Client.Call`) -/

/-- The typed error element (`type Error struct` with `code` and `msg` attributes). -/
structure Error where
  Code : Int
  Msg : String
deriving DecidableEq, Repr

/-- The anonymous response struct of `Client.Call`: root element `rsp` with a
`stat` attribute, an optional `err` child, and the raw inner XML. -/
structure Rsp where
  Stat : String
  Err : Option Error
  Inner : String
deriving DecidableEq, Repr

/-- The decision switch of `Client.Call` applied to the outcome of
`xml.Unmarshal` (an unmarshal error, or the decoded `rsp` struct): unmarshal
failure is returned as is, a present `err` element wins regardless of `stat`,
a `stat` other than `"ok"` is an `unexpected stat` error, and otherwise the
raw inner XML is the payload. -/
def classify (decoded : Except String Rsp) : Except GoError String :=
  match decoded with
  | .error e => .error (.xmlError e)
  | .ok rsp =>
      match rsp.Err with
      | some e => .error (.rtmError e.Code e.Msg)
      | none => if rsp.Stat ≠ "ok" then .error (.statError rsp.Stat) else .ok rsp.Inner

/-- `Client.Call`: run `post` with an empty format, then decode the body with
the XML decoder (`encoding/xml`, passed as an explicit collaborator) and apply
the decision switch.  The event trace of `post` is passed through. -/
def Call (c : Client) (method : String) (args : Params)
    (exchange : Except String HttpResponse) (decode : String → Except String Rsp) :
    Except GoError String × List Event :=
  match post c method args "" exchange with
  | (.error e, tr) => (.error e, tr)
  | (.ok b, tr) => (classify (decode b), tr)

/-! ### Spec-side definitions -/

/-- The outcome categories of the specification (section 7 taxonomy). -/
inductive OutcomeKind where
  | payload
  | protocolErr
  | decodeErr
  | transportErr
deriving DecidableEq, Repr

/-- Spec-side classification of a call result into the specification's outcome
categories: success payload; `ProtocolError` (a remote application error or an
unrecognized status); `DecodeError` (XML unmarshal failure); `TransportError`
(network failure or non-200 status). -/
def outcomeKind : Except GoError String → OutcomeKind
  | .ok _ => .payload
  | .error (.rtmError _ _) => .protocolErr
  | .error (.statError _) => .protocolErr
  | .error (.xmlError _) => .decodeErr
  | .error (.netError _) => .transportErr
  | .error (.httpStatusError _) => .transportErr

/-- Spec-side string-to-sign, following the specification words: the secret,
then for each sorted key the key immediately followed by its value, with no
separators. -/
def specStringToSign (secret : String) (q : Params) : String :=
  secret ++ String.join ((sortedKeys q).map (fun k => k ++ getParam q k))

/-! ### MD5 sanity anchors (RFC 1321 test vectors) -/

set_option maxRecDepth 400000 in
theorem md5Hex_vector_empty : md5Hex "" = "d41d8cd98f00b204e9800998ecf8427e" := by rfl

set_option maxRecDepth 400000 in
theorem md5Hex_vector_abc : md5Hex "abc" = "900150983cd24fb0d6963f7d28e17f72" := by rfl

/-! ### Association-list helpers for `getParam` / `setParam` -/

/-- Dropping elements that a predicate could not match does not change `find?`. -/
theorem find?_filter_keep {α : Type} (p keep : α → Bool) (l : List α)
    (h : ∀ a, p a = true → keep a = true) :
    (l.filter keep).find? p = l.find? p := by
  induction l with
  | nil => rfl
  | cons a l ih =>
    cases hk : keep a with
    | true =>
      rw [List.filter_cons_of_pos hk]
      cases hp : p a with
      | true => rw [List.find?_cons_of_pos _ hp, List.find?_cons_of_pos _ hp]
      | false =>
        rw [List.find?_cons_of_neg _ (by simp [hp]), List.find?_cons_of_neg _ (by simp [hp]), ih]
    | false =>
      have hp : p a = false := by
        cases hpa : p a with
        | true => exact absurd (h a hpa) (by simp [hk])
        | false => rfl
      rw [List.filter_cons_of_neg (by simp [hk]), List.find?_cons_of_neg _ (by simp [hp]), ih]

/-- `Get` after `Set`: the set key reads back the new value, others are untouched. -/
theorem getParam_setParam (q : Params) (k v k' : String) :
    getParam (setParam q k v) k' = if k' = k then v else getParam q k' := by
  unfold getParam setParam
  rw [List.find?_append]
  by_cases h : k' = k
  · subst h
    have h1 : (q.filter (fun p => p.1 != k')).find? (fun p => p.1 == k') = none := by
      rw [List.find?_eq_none]
      intro p hp
      have h2 := (List.mem_filter.mp hp).2
      simp only [bne_iff_ne, ne_eq] at h2
      simp [h2]
    rw [h1]
    simp
  · have h1 : (q.filter (fun p => p.1 != k)).find? (fun p => p.1 == k')
        = q.find? (fun p => p.1 == k') := by
      apply find?_filter_keep
      intro a ha
      have ha' : a.1 = k' := by simpa using ha
      simp [ha', h, Ne.symm]
    rw [h1]
    have h2 : ([(k, v)].find? (fun p => p.1 == k')) = none := by
      rw [List.find?_eq_none]
      intro p hp
      simp only [List.mem_singleton] at hp
      subst hp
      simp
      exact fun hc => h hc.symm
    rw [h2]
    cases q.find? (fun p => p.1 == k') <;> simp [h, Option.or]

/-- Membership in the keys after a `Set`. -/
theorem mem_keysOf_setParam (q : Params) (k v k' : String) :
    k' ∈ keysOf (setParam q k v) ↔ k' = k ∨ k' ∈ keysOf q := by
  unfold keysOf setParam
  simp only [List.map_append, List.mem_append, List.map_cons, List.map_nil,
    List.mem_singleton, List.mem_map, List.mem_filter, bne_iff_ne, ne_eq]
  constructor
  · rintro (⟨p, ⟨hp, _⟩, rfl⟩ | rfl)
    · exact Or.inr ⟨p, hp, rfl⟩
    · exact Or.inl rfl
  · rintro (rfl | ⟨p, hp, rfl⟩)
    · exact Or.inr rfl
    · by_cases he : p.1 = k
      · exact Or.inr he
      · exact Or.inl ⟨p, ⟨hp, he⟩, rfl⟩

/-- `getParam` on a cons cell. -/
theorem getParam_cons (p : String × String) (l : Params) (k : String) :
    getParam (p :: l) k = if p.1 = k then p.2 else getParam l k := by
  unfold getParam
  by_cases h : p.1 = k
  · rw [List.find?_cons_of_pos _ (by simpa using h), if_pos h]
  · rw [List.find?_cons_of_neg _ (by simpa using h), if_neg h]

/-- With unique keys, `getParam` reads the value of the member pair with that key. -/
theorem getParam_eq_of_mem (l : Params) (hn : (l.map Prod.fst).Nodup)
    (k v : String) (hm : (k, v) ∈ l) : getParam l k = v := by
  induction l with
  | nil => cases hm
  | cons p l ih =>
    rw [List.map_cons, List.nodup_cons] at hn
    rw [getParam_cons]
    rcases List.mem_cons.mp hm with rfl | hm'
    · rw [if_pos rfl]
    · have hne : p.1 ≠ k := by
        intro he
        exact hn.1 (he ▸ List.mem_map_of_mem Prod.fst hm')
      rw [if_neg hne]
      exact ih hn.2 hm'

/-- A key that is absent reads as the empty string (Go `url.Values.Get`). -/
theorem getParam_eq_of_not_mem (l : Params) (k : String) (h : k ∉ l.map Prod.fst) :
    getParam l k = "" := by
  have hf : l.find? (fun p => p.1 == k) = none := by
    rw [List.find?_eq_none]
    intro p hp
    simp only [beq_iff_eq]
    exact fun he => h (he ▸ List.mem_map_of_mem Prod.fst hp)
  unfold getParam
  rw [hf]

/-- With unique keys, `getParam` is invariant under permutation of the entries. -/
theorem getParam_eq_of_perm (l l' : Params) (hp : l.Perm l')
    (hn : (l.map Prod.fst).Nodup) (k : String) : getParam l k = getParam l' k := by
  have hn' : (l'.map Prod.fst).Nodup := ((hp.map Prod.fst).nodup_iff).mp hn
  by_cases hk : k ∈ l.map Prod.fst
  · obtain ⟨p, hpm, hp1⟩ := List.mem_map.mp hk
    have hpair : p = (k, p.2) := by
      cases p
      simp only [Prod.mk.injEq]
      exact ⟨hp1, trivial⟩
    rw [hpair] at hpm
    rw [getParam_eq_of_mem l hn k p.2 hpm,
      getParam_eq_of_mem l' hn' k p.2 (hp.mem_iff.mp hpm)]
  · rw [getParam_eq_of_not_mem l k hk,
      getParam_eq_of_not_mem l' k (fun hmem => hk (((hp.map Prod.fst).mem_iff).mpr hmem))]

/-- `Set`-inserting pairs whose keys are fresh and mutually distinct appends them. -/
theorem foldl_setParam_eq_append (l : List (String × String)) :
    ∀ acc : Params, (keysOf acc ++ l.map Prod.fst).Nodup →
      l.foldl (fun q p => setParam q p.1 p.2) acc = acc ++ l := by
  induction l with
  | nil =>
    intro acc _
    simp
  | cons p l ih =>
    intro acc h
    have hk : p.1 ∉ keysOf acc := by
      intro hmem
      rw [List.nodup_append] at h
      exact h.2.2 hmem (List.mem_cons_self _ _)
    have hset : setParam acc p.1 p.2 = acc ++ [(p.1, p.2)] := by
      unfold setParam
      congr 1
      rw [List.filter_eq_self]
      intro a ha
      simp only [bne_iff_ne, ne_eq]
      exact fun hcontra => hk (hcontra ▸ List.mem_map_of_mem Prod.fst ha)
    rw [List.foldl_cons, hset, ih (acc ++ [(p.1, p.2)])]
    · simp
    · have hre : keysOf (acc ++ [(p.1, p.2)]) ++ l.map Prod.fst
          = keysOf acc ++ p.1 :: l.map Prod.fst := by
        unfold keysOf
        simp
      rw [hre]
      exact h

/-- Building a parameter set from pairs with unique keys reproduces the pairs. -/
theorem paramsOfList_eq (l : List (String × String)) (h : (l.map Prod.fst).Nodup) :
    paramsOfList l = l := by
  have := foldl_setParam_eq_append l [] (by simpa [keysOf] using h)
  simpa [paramsOfList] using this

/-- Folding string concatenation from an arbitrary start factors the start out. -/
theorem foldl_string_append (l : List String) (s : String) :
    l.foldl (· ++ ·) s = s ++ l.foldl (· ++ ·) "" := by
  induction l generalizing s with
  | nil => simp
  | cons a l ih =>
    rw [List.foldl_cons, List.foldl_cons, ih (s ++ a), String.empty_append, ih a,
      String.append_assoc]

/-- `String.join` of a cons cell. -/
theorem join_cons (s : String) (l : List String) :
    String.join (s :: l) = s ++ String.join l := by
  show (s :: l).foldl (· ++ ·) "" = s ++ l.foldl (· ++ ·) ""
  rw [List.foldl_cons, String.empty_append, foldl_string_append]

/-- The accumulating concatenation loop of `Client.sign` as a join of mapped keys. -/
theorem foldl_concat_eq_join (g : String → String) (ks : List String) :
    ∀ s : String,
      ks.foldl (fun sts k => sts ++ k ++ g k) s
        = s ++ String.join (ks.map (fun k => k ++ g k)) := by
  induction ks with
  | nil => intro s; simp [String.join]
  | cons k ks ih =>
    intro s
    rw [List.foldl_cons, ih (s ++ k ++ g k), List.map_cons, join_cons]
    simp [String.append_assoc]

/-- Sorting is invariant under permutation of the entries: the ascending order
is canonical. -/
theorem sortedKeys_eq_of_perm (l l' : Params) (hp : l.Perm l') :
    sortedKeys l = sortedKeys l' := by
  apply List.eq_of_perm_of_sorted (r := (· ≤ ·))
  · exact (List.perm_insertionSort _ _).trans
      ((hp.map Prod.fst).trans (List.perm_insertionSort _ _).symm)
  · exact List.sorted_insertionSort _ _
  · exact List.sorted_insertionSort _ _

/-- The string-to-sign depends only on the key-value mapping, not on entry order. -/
theorem stringToSign_eq_of_perm (secret : String) (l l' : Params) (hp : l.Perm l')
    (hn : (l.map Prod.fst).Nodup) : stringToSign secret l = stringToSign secret l' := by
  unfold stringToSign
  rw [sortedKeys_eq_of_perm l l' hp, foldl_concat_eq_join, foldl_concat_eq_join]
  have hmap : (sortedKeys l').map (fun k => k ++ getParam l k)
      = (sortedKeys l').map (fun k => k ++ getParam l' k) := by
    apply List.map_congr_left
    intro k _
    rw [getParam_eq_of_perm l l' hp hn k]
  rw [hmap]

/-! ### C1, C2, C9: the signer -/

/-- C1: for every parameter set `q` and secret, the signature `sign` stores under
`api_sig` equals the lowercase-hex MD5 digest of the secret followed by each key
in ascending lexicographic order immediately followed by its value, with no
separators (`specStringToSign`); for the empty parameter set the digest is taken
over the secret alone. -/
theorem sign_matches_spec (secret : String) (q : Params) :
    getParam (sign secret q) "api_sig" = md5Hex (specStringToSign secret q)
    ∧ getParam (sign secret []) "api_sig" = md5Hex secret := by
  constructor
  · unfold sign
    rw [getParam_setParam, if_pos rfl]
    unfold stringToSign specStringToSign
    rw [foldl_concat_eq_join]
  · unfold sign
    rw [getParam_setParam, if_pos rfl]
    rfl

/-- C2: signing is deterministic (a pure function), and building a parameter set
by `Set`-inserting the same unique-keyed pairs in any order yields the same
signature, because the keys are sorted before the string-to-sign is built. -/
theorem sign_deterministic_order_independent (secret : String)
    (l l' : List (String × String)) (hn : (l.map Prod.fst).Nodup) (hp : l.Perm l') :
    sign secret (paramsOfList l) = sign secret (paramsOfList l)
    ∧ getParam (sign secret (paramsOfList l)) "api_sig"
        = getParam (sign secret (paramsOfList l')) "api_sig" := by
  refine ⟨rfl, ?_⟩
  have hn' : (l'.map Prod.fst).Nodup := ((hp.map Prod.fst).nodup_iff).mp hn
  rw [paramsOfList_eq l hn, paramsOfList_eq l' hn']
  unfold sign
  rw [getParam_setParam, getParam_setParam, if_pos rfl, if_pos rfl,
    stringToSign_eq_of_perm secret l l' hp hn]

/-- Witness for C2 at a concrete input: two insertion orders of the same pairs. -/
theorem sign_deterministic_order_independent_witness :
    ((([("yxz", "foo"), ("feg", "bar")] : List (String × String)).map Prod.fst).Nodup
      ∧ ([("yxz", "foo"), ("feg", "bar")] : List (String × String)).Perm
          [("feg", "bar"), ("yxz", "foo")])
    ∧ (sign "BANANAS" (paramsOfList [("yxz", "foo"), ("feg", "bar")])
        = sign "BANANAS" (paramsOfList [("yxz", "foo"), ("feg", "bar")])
      ∧ getParam (sign "BANANAS" (paramsOfList [("yxz", "foo"), ("feg", "bar")])) "api_sig"
        = getParam (sign "BANANAS" (paramsOfList [("feg", "bar"), ("yxz", "foo")])) "api_sig") :=
  ⟨⟨by decide, by decide⟩,
   sign_deterministic_order_independent "BANANAS" _ _ (by decide) (by decide)⟩

/-- C9 (amended): `sign` leaves every key other than `api_sig` bound to its old
value, adds or removes no key other than `api_sig`, and sets `api_sig` to the
computed signature — overwriting any value previously stored under `api_sig`. -/
theorem sign_preserves_other_keys (secret : String) (q : Params) :
    (∀ k, k ≠ "api_sig" → getParam (sign secret q) k = getParam q k)
    ∧ (∀ k, k ∈ keysOf (sign secret q) ↔ k ∈ keysOf q ∨ k = "api_sig")
    ∧ getParam (sign secret q) "api_sig" = md5Hex (stringToSign secret q) := by
  refine ⟨?_, ?_, ?_⟩
  · intro k hk
    unfold sign
    rw [getParam_setParam, if_neg hk]
  · intro k
    unfold sign
    rw [mem_keysOf_setParam]
    tauto
  · unfold sign
    rw [getParam_setParam, if_pos rfl]

/-- Witness for C9's amended theorem at a concrete input. -/
theorem sign_preserves_other_keys_witness :
    getParam (sign "BANANAS" [("abc", "baz")]) "abc" = getParam [("abc", "baz")] "abc"
    ∧ ("frob" ∈ keysOf (sign "BANANAS" [("abc", "baz")])
        ↔ "frob" ∈ keysOf [("abc", "baz")] ∨ "frob" = "api_sig") :=
  ⟨(sign_preserves_other_keys "BANANAS" [("abc", "baz")]).1 "abc" (by decide),
   (sign_preserves_other_keys "BANANAS" [("abc", "baz")]).2.1 "frob"⟩

set_option maxRecDepth 400000 in
/-- Counterexample for C9 as stated: a parameter set that already contains
`api_sig` does not keep that key's value — `sign` overwrites it with the fresh
32-character digest, so not every key present before still maps to the same
value afterwards. -/
theorem sign_overwrites_existing_api_sig :
    getParam (sign "" [("api_sig", "x")]) "api_sig" ≠ "x" := by decide

/-! ### C5: the authorization URL -/

/-- The parameter set of `AuthenticationURL` before signing, written out. -/
theorem authParams_eq (c : Client) (perms : Perms) (frob : String) :
    authParams c perms frob =
      if frob ≠ "" then [("api_key", c.APIKey), ("perms", perms), ("frob", frob)]
      else [("api_key", c.APIKey), ("perms", perms)] := by
  unfold authParams setParam
  by_cases hf : frob = "" <;> simp [hf]

/-- C5: the authorization URL is the signed auth parameter set serialized against
the fixed HTTPS authorization endpoint; `frob` is a key of the signing input and
of the signed query exactly when it is non-empty; `api_key`, `perms` and
`api_sig` are always present, with `api_sig` holding the digest of the
string-to-sign over exactly the pre-signing parameters. -/
theorem authenticationURL_spec (c : Client) (perms : Perms) (frob : String) :
    AuthenticationURL c perms frob
        = urlString authEndpoint (encodeValues (sign c.APISecret (authParams c perms frob)))
    ∧ ("frob" ∈ keysOf (authParams c perms frob) ↔ frob ≠ "")
    ∧ ("frob" ∈ keysOf (sign c.APISecret (authParams c perms frob)) ↔ frob ≠ "")
    ∧ getParam (sign c.APISecret (authParams c perms frob)) "api_key" = c.APIKey
    ∧ getParam (sign c.APISecret (authParams c perms frob)) "perms" = perms
    ∧ "api_sig" ∈ keysOf (sign c.APISecret (authParams c perms frob))
    ∧ getParam (sign c.APISecret (authParams c perms frob)) "api_sig"
        = md5Hex (stringToSign c.APISecret (authParams c perms frob))
    ∧ authEndpoint = ⟨"https", "api.rememberthemilk.com", "/services/auth/"⟩ := by
  have hpre : "frob" ∈ keysOf (authParams c perms frob) ↔ frob ≠ "" := by
    rw [authParams_eq]
    by_cases hf : frob = "" <;> simp [hf, keysOf]
  refine ⟨rfl, hpre, ?_, ?_, ?_, ?_, ?_, rfl⟩
  · unfold sign
    rw [mem_keysOf_setParam]
    simpa using hpre
  · unfold sign
    rw [getParam_setParam, if_neg (by decide), authParams_eq]
    by_cases hf : frob = "" <;> simp [hf, getParam_cons]
  · unfold sign
    rw [getParam_setParam, if_neg (by decide), authParams_eq]
    by_cases hf : frob = "" <;> simp [hf, getParam_cons]
  · unfold sign
    rw [mem_keysOf_setParam]
    exact Or.inl rfl
  · unfold sign
    rw [getParam_setParam, if_pos rfl]

/-! ### C6: reserved control keys win over caller args -/

/-- C6: the merged parameter set of `Client.post` binds the reserved control keys
to their fixed control values for every caller-supplied `args`, including args
that contain entries under those same keys: `v` to the protocol version `"2"`,
`method` to the method name, `format` to the override when one is given,
`api_key` to the client key, and `auth_token` to the token when it is non-empty. -/
theorem buildQuery_reserved_keys_win (args : Params)
    (method format apiKey authToken : String) :
    getParam (buildQuery args method format apiKey authToken) "v" = "2"
    ∧ getParam (buildQuery args method format apiKey authToken) "method" = method
    ∧ (format ≠ "" →
        getParam (buildQuery args method format apiKey authToken) "format" = format)
    ∧ getParam (buildQuery args method format apiKey authToken) "api_key" = apiKey
    ∧ (authToken ≠ "" →
        getParam (buildQuery args method format apiKey authToken) "auth_token" = authToken) := by
  unfold buildQuery
  by_cases hf : format = "" <;> by_cases ht : authToken = "" <;>
    simp [hf, ht, getParam_setParam]

/-- Witness for C6 at a concrete input whose args collide with every reserved key. -/
theorem buildQuery_reserved_keys_win_witness :
    (("json" : String) ≠ "" ∧ ("token123" : String) ≠ "")
    ∧ getParam (buildQuery [("v", "9"), ("method", "evil"), ("format", "evil"),
        ("api_key", "evil"), ("auth_token", "evil")]
        "rtm.test.echo" "json" "KEY" "token123") "v" = "2"
    ∧ getParam (buildQuery [("v", "9"), ("method", "evil"), ("format", "evil"),
        ("api_key", "evil"), ("auth_token", "evil")]
        "rtm.test.echo" "json" "KEY" "token123") "method" = "rtm.test.echo"
    ∧ getParam (buildQuery [("v", "9"), ("method", "evil"), ("format", "evil"),
        ("api_key", "evil"), ("auth_token", "evil")]
        "rtm.test.echo" "json" "KEY" "token123") "format" = "json"
    ∧ getParam (buildQuery [("v", "9"), ("method", "evil"), ("format", "evil"),
        ("api_key", "evil"), ("auth_token", "evil")]
        "rtm.test.echo" "json" "KEY" "token123") "api_key" = "KEY"
    ∧ getParam (buildQuery [("v", "9"), ("method", "evil"), ("format", "evil"),
        ("api_key", "evil"), ("auth_token", "evil")]
        "rtm.test.echo" "json" "KEY" "token123") "auth_token" = "token123" :=
  ⟨⟨by decide, by decide⟩,
   (buildQuery_reserved_keys_win _ _ _ _ _).1,
   (buildQuery_reserved_keys_win _ _ _ _ _).2.1,
   (buildQuery_reserved_keys_win _ _ _ _ _).2.2.1 (by decide),
   (buildQuery_reserved_keys_win _ _ _ _ _).2.2.2.1,
   (buildQuery_reserved_keys_win _ _ _ _ _).2.2.2.2 (by decide)⟩

/-! ### C3, C4, C10: the envelope switch of `Client.Call` -/

/-- C3: for every decoded body handed to the envelope switch, exactly one of the
three spec outcomes occurs (the outcome categories below are distinct
constructors, so at most one of the three equations can hold): an unmarshal
failure is a decode error; otherwise a present `err` element yields the typed
protocol error carrying that element's code and msg, regardless of the `stat`
value; otherwise `stat = "ok"` yields the raw inner XML as the payload. -/
theorem classify_trichotomy (d : Except String Rsp) :
    (outcomeKind (classify d) = OutcomeKind.decodeErr
      ∨ outcomeKind (classify d) = OutcomeKind.protocolErr
      ∨ outcomeKind (classify d) = OutcomeKind.payload)
    ∧ (∀ e, d = .error e → classify d = .error (.xmlError e))
    ∧ (∀ r er, d = .ok r → r.Err = some er →
        classify d = .error (.rtmError er.Code er.Msg))
    ∧ (∀ r, d = .ok r → r.Err = none → r.Stat = "ok" → classify d = .ok r.Inner) := by
  refine ⟨?_, ?_, ?_, ?_⟩
  · cases d with
    | error e => exact Or.inl rfl
    | ok r =>
      cases hr : r.Err with
      | some e => exact Or.inr (Or.inl (by simp [classify, hr, outcomeKind]))
      | none =>
        by_cases hs : r.Stat = "ok"
        · exact Or.inr (Or.inr (by simp [classify, hr, hs, outcomeKind]))
        · exact Or.inr (Or.inl (by simp [classify, hr, hs, outcomeKind]))
  · rintro e rfl
    rfl
  · rintro r er rfl hr
    simp [classify, hr]
  · rintro r rfl hr hs
    simp [classify, hr, hs]

/-- Witness for C3 at concrete decoded bodies, one per decision-table row. -/
theorem classify_trichotomy_witness :
    classify (.error "not xml") = .error (.xmlError "not xml")
    ∧ classify (.ok ⟨"fail", some ⟨98, "Login failed"⟩, ""⟩)
        = .error (.rtmError 98 "Login failed")
    ∧ classify (.ok ⟨"ok", none, "<x>1</x>"⟩) = .ok "<x>1</x>" :=
  ⟨(classify_trichotomy (.error "not xml")).2.1 "not xml" rfl,
   (classify_trichotomy (.ok ⟨"fail", some ⟨98, "Login failed"⟩, ""⟩)).2.2.1
     ⟨"fail", some ⟨98, "Login failed"⟩, ""⟩ ⟨98, "Login failed"⟩ rfl rfl,
   (classify_trichotomy (.ok ⟨"ok", none, "<x>1</x>"⟩)).2.2.2
     ⟨"ok", none, "<x>1</x>"⟩ rfl rfl rfl⟩

/-- Counterexample for C4 as stated: on a well-formed body whose root has no
`err` child and whose `stat` differs from `"ok"`, the call returns the plain
`fmt.Errorf` value `statError` — not the typed `*Error` protocol value, and it
carries no numeric code (`isTypedError` is the Go type test `err.(*Error)`). -/
theorem call_unexpected_stat_counterexample :
    (Call ⟨"key", "secret", "", false⟩ "rtm.test.login" []
        (.ok ⟨200, "<rsp stat=\"weird\"></rsp>"⟩)
        (fun _ => .ok ⟨"weird", none, ""⟩)).1 = .error (.statError "weird")
    ∧ GoError.isTypedError (GoError.statError "weird") = false :=
  ⟨rfl, rfl⟩

/-- C4 (amended): for every well-formed response body whose root has no `err`
child and whose `stat` differs from `"ok"`, the call fails with the untyped
`unexpected stat` error: it carries the observed status string in its message
(rendered `unexpected stat "<stat>"`), but it is not the typed ProtocolError
value and carries no numeric code. -/
theorem call_unexpected_stat_is_plain_error (c : Client) (method : String)
    (args : Params) (body stat inner : String) (decode : String → Except String Rsp)
    (hd : decode body = .ok ⟨stat, none, inner⟩) (hs : stat ≠ "ok") :
    (Call c method args (.ok ⟨200, body⟩) decode).1 = .error (.statError stat)
    ∧ GoError.isTypedError (GoError.statError stat) = false
    ∧ GoError.message (GoError.statError stat) = "unexpected stat \"" ++ stat ++ "\"" := by
  refine ⟨?_, rfl, rfl⟩
  simp [Call, post, hd, classify, hs]

/-- Witness for C4's amended theorem at a concrete input. -/
theorem call_unexpected_stat_is_plain_error_witness :
    ((fun _ : String => (Except.ok (⟨"weird", none, ""⟩ : Rsp) : Except String Rsp))
        "<rsp stat=\"weird\"></rsp>" = .ok ⟨"weird", none, ""⟩
      ∧ ("weird" : String) ≠ "ok")
    ∧ ((Call ⟨"key", "secret", "tok", true⟩ "rtm.tasks.getList" []
          (.ok ⟨200, "<rsp stat=\"weird\"></rsp>"⟩)
          (fun _ => .ok ⟨"weird", none, ""⟩)).1 = .error (.statError "weird")
      ∧ GoError.isTypedError (GoError.statError "weird") = false
      ∧ GoError.message (GoError.statError "weird")
          = "unexpected stat \"" ++ "weird" ++ "\"") :=
  ⟨⟨rfl, by decide⟩,
   call_unexpected_stat_is_plain_error ⟨"key", "secret", "tok", true⟩ "rtm.tasks.getList"
     [] "<rsp stat=\"weird\"></rsp>" "weird" "" (fun _ => .ok ⟨"weird", none, ""⟩)
     rfl (by decide)⟩

/-- C10: a 200 exchange whose body decodes to a root with `stat = "ok"`, no `err`
child and empty inner content makes `Call` succeed with the empty payload. -/
theorem call_ok_empty_payload (c : Client) (method : String) (args : Params)
    (body : String) (decode : String → Except String Rsp)
    (hd : decode body = .ok ⟨"ok", none, ""⟩) :
    (Call c method args (.ok ⟨200, body⟩) decode).1 = .ok "" := by
  simp [Call, post, hd, classify]

/-- Witness for C10 at a concrete input: the body of a bare ok envelope. -/
theorem call_ok_empty_payload_witness :
    ((fun _ : String => (Except.ok (⟨"ok", none, ""⟩ : Rsp) : Except String Rsp))
        "<rsp stat=\"ok\"/>" = .ok ⟨"ok", none, ""⟩)
    ∧ (Call ⟨"key", "secret", "", false⟩ "rtm.test.echo" []
        (.ok ⟨200, "<rsp stat=\"ok\"/>"⟩)
        (fun _ => .ok ⟨"ok", none, ""⟩)).1 = .ok "" :=
  ⟨rfl,
   call_ok_empty_payload ⟨"key", "secret", "", false⟩ "rtm.test.echo" []
     "<rsp stat=\"ok\"/>" (fun _ => .ok ⟨"ok", none, ""⟩) rfl⟩

/-! ### C7: non-200 status wins over body content -/

/-- C7: a delivered response with a status other than 200 makes the call fail
with the transport-category error carrying the status code; the decoder is
irrelevant — the result is the same for every decoder, so even a well-formed ok
envelope body yields this error and not a payload. -/
theorem call_non200_is_transport (c : Client) (method : String) (args : Params)
    (r : HttpResponse) (hst : r.status ≠ 200)
    (decode decode' : String → Except String Rsp) :
    (Call c method args (.ok r) decode).1 = .error (.httpStatusError r.status)
    ∧ (Call c method args (.ok r) decode).1 = (Call c method args (.ok r) decode').1
    ∧ outcomeKind (.error (.httpStatusError r.status)) = OutcomeKind.transportErr
    ∧ GoError.message (.httpStatusError r.status)
        = "HTTP status code " ++ toString r.status := by
  have h1 : ∀ dec : String → Except String Rsp,
      (Call c method args (.ok r) dec).1 = .error (.httpStatusError r.status) := by
    intro dec
    simp [Call, post, hst]
  exact ⟨h1 decode, (h1 decode).trans (h1 decode').symm, rfl, rfl⟩

/-- Witness for C7: a 500 response carrying a well-formed ok envelope body. -/
theorem call_non200_is_transport_witness :
    ((⟨500, "<rsp stat=\"ok\"/>"⟩ : HttpResponse).status ≠ 200)
    ∧ ((Call ⟨"key", "secret", "", false⟩ "rtm.test.echo" []
          (.ok ⟨500, "<rsp stat=\"ok\"/>"⟩) (fun _ => .ok ⟨"ok", none, ""⟩)).1
        = .error (.httpStatusError (⟨500, "<rsp stat=\"ok\"/>"⟩ : HttpResponse).status)
      ∧ (Call ⟨"key", "secret", "", false⟩ "rtm.test.echo" []
          (.ok ⟨500, "<rsp stat=\"ok\"/>"⟩) (fun _ => .ok ⟨"ok", none, ""⟩)).1
        = (Call ⟨"key", "secret", "", false⟩ "rtm.test.echo" []
          (.ok ⟨500, "<rsp stat=\"ok\"/>"⟩) (fun _ => .error "junk")).1
      ∧ outcomeKind (.error (.httpStatusError
          (⟨500, "<rsp stat=\"ok\"/>"⟩ : HttpResponse).status)) = OutcomeKind.transportErr
      ∧ GoError.message (.httpStatusError (⟨500, "<rsp stat=\"ok\"/>"⟩ : HttpResponse).status)
          = "HTTP status code "
            ++ toString (⟨500, "<rsp stat=\"ok\"/>"⟩ : HttpResponse).status) :=
  ⟨by decide,
   call_non200_is_transport ⟨"key", "secret", "", false⟩ "rtm.test.echo" []
     ⟨500, "<rsp stat=\"ok\"/>"⟩ (by decide)
     (fun _ => .ok ⟨"ok", none, ""⟩) (fun _ => .error "junk")⟩

/-! ### C8: the diagnostic sink -/

/-- C8: with a configured debug logger, every execution of `post` emits the
serialized outbound request to the sink exactly once, immediately before the
send, and — whenever a response is delivered — emits the received response to
the sink exactly once, immediately after its receipt; this holds for every
exchange outcome, the body later handed to parsing is exactly the received
(and dumped) body, and `Call` passes the trace through unchanged, so the later
envelope classification cannot alter it.  Without the logger no dump event is
emitted and the call result is unchanged. -/
theorem post_debug_sink_trace (key secret token method format : String)
    (args : Params) (e body : String) (r : HttpResponse)
    (exchange : Except String HttpResponse) (decode : String → Except String Rsp) :
    (post ⟨key, secret, token, true⟩ method args format (.error e)).2
        = [Event.dumpRequest "POST" (requestURL ⟨key, secret, token, true⟩ method args format)
            userAgent,
           Event.send "POST" (requestURL ⟨key, secret, token, true⟩ method args format)
            userAgent]
    ∧ (post ⟨key, secret, token, true⟩ method args format (.ok r)).2
        = [Event.dumpRequest "POST" (requestURL ⟨key, secret, token, true⟩ method args format)
            userAgent,
           Event.send "POST" (requestURL ⟨key, secret, token, true⟩ method args format)
            userAgent,
           Event.receive r, Event.dumpResponse r]
    ∧ (post ⟨key, secret, token, true⟩ method args format (.ok ⟨200, body⟩)).1 = .ok body
    ∧ (post ⟨key, secret, token, false⟩ method args format (.error e)).2
        = [Event.send "POST" (requestURL ⟨key, secret, token, false⟩ method args format)
            userAgent]
    ∧ (post ⟨key, secret, token, false⟩ method args format (.ok r)).2
        = [Event.send "POST" (requestURL ⟨key, secret, token, false⟩ method args format)
            userAgent,
           Event.receive r]
    ∧ (post ⟨key, secret, token, false⟩ method args format exchange).1
        = (post ⟨key, secret, token, true⟩ method args format exchange).1
    ∧ (Call ⟨key, secret, token, true⟩ method args exchange decode).2
        = (post ⟨key, secret, token, true⟩ method args "" exchange).2 := by
  refine ⟨rfl, ?_, ?_, rfl, ?_, ?_, ?_⟩
  · by_cases hs : r.status = 200 <;> simp [post, hs]
  · simp [post]
  · by_cases hs : r.status = 200 <;> simp [post, hs]
  · cases exchange with
    | error e => rfl
    | ok r => by_cases hs : r.status = 200 <;> simp [post, hs]
  · unfold Call
    cases hp : post ⟨key, secret, token, true⟩ method args "" exchange with
    | mk res tr => cases res <;> simp

end RTM
